import Mathlib

/-!
Verification development for the module manager of the repository
(source: src/electron/manager.ts).  The TypeScript source is shallowly
embedded: pure data flow becomes Lean functions, the filesystem seen by a
scan becomes an explicit tree value, asynchronous completion order becomes
an explicit order parameter, and JavaScript runtime errors (reading a
field of an undefined value) become an explicit error result.
-/

set_option maxHeartbeats 1000000

namespace AWManager

/-- Provenance of a module, source line 45: type ModuleType = system | bundled. -/
inductive ModuleType : Type where
  | system : ModuleType
  | bundled : ModuleType
deriving DecidableEq

/-- Observable state of a spawned child process handle, as node exposes it.
A live process has both exitCode and signalCode null; a process that exited
normally has exitCode set and signalCode still null; a process killed by a
signal has signalCode set.  A spawn that failed (missing executable, not
executable, OS rejection) still yields a handle object: node reports the
failure later through an error event, and the handle keeps exitCode and
signalCode null. -/
inductive ProcState : Type where
  | running : ProcState
  | exited (code : Int) : ProcState
  | signaled (sig : String) : ProcState
  | spawnFailed : ProcState
deriving DecidableEq

/-- The signalCode field of a child process handle. -/
def ProcState.signalCode : ProcState → Option String
  | ProcState.signaled s => some s
  | _ => none

/-- JavaScript runtime error surfaced by the embedded code.  typeError
models reading a property of undefined, which throws. -/
inductive JsError : Type where
  | typeError : JsError
deriving DecidableEq

/-- Source lines 47 to 57: class Module with fields name, path, process and
type.  The constructor sets name, path and type; it never assigns process,
so on a fresh Module the process field is undefined, modelled as none. -/
structure Module : Type where
  name : String
  path : String
  process : Option ProcState := none
  type : ModuleType
deriving DecidableEq

/-- Character list version of prefix testing for the substring check. -/
def isPrefixOfL : List Char → List Char → Bool
  | [], _ => true
  | _ :: _, [] => false
  | a :: as, b :: bs => a == b && isPrefixOfL as bs

/-- Substring search on character lists: does needle occur anywhere in hay. -/
def containsSub (needle : List Char) : List Char → Bool
  | [] => isPrefixOfL needle []
  | c :: rest => isPrefixOfL needle (c :: rest) || containsSub needle rest

/-- JavaScript String.prototype.includes, used by the source both in the
module name regex and in the autostart server classification. -/
def strIncludes (s sub : String) : Bool := containsSub sub.data s.data

/-- Source line 204: file.match of the regex aw-(server|watcher), an
unanchored match, true exactly when the filename contains the substring
aw-server or the substring aw-watcher. -/
def nameMatches (file : String) : Bool :=
  strIncludes file "aw-server" || strIncludes file "aw-watcher"

/-- path.join of a directory and an entry name, posix form. -/
def pathJoin (d f : String) : String := d ++ "/" ++ f

/- A filesystem tree as one scan observes it: an entry is a regular file
(with its execute permission bit) or a directory of named entries. -/
mutual
inductive FSNode : Type where
  | file (canExec : Bool) : FSNode
  | dir (entries : FSEntries) : FSNode
inductive FSEntries : Type where
  | nil : FSEntries
  | cons (name : String) (node : FSNode) (rest : FSEntries) : FSEntries
end

/- Source lines 197 to 234, Manager.discoverModules, recursive part.
readdir lists the entries; entries are filtered by nameMatches before any
stat; a matching regular file is emitted as a Module when the execute
permission test passes; a matching directory is recursed into.  The push
order inside one directory is modelled as listing order (the claims
settled here do not depend on it). -/
mutual
def scanNode (ty : ModuleType) (fname fpath : String) : FSNode → List Module
  | FSNode.file ex =>
      if ex then [{ name := fname, path := fpath, process := none, type := ty }] else []
  | FSNode.dir es => scanEntries ty fpath es
def scanEntries (ty : ModuleType) (dpath : String) : FSEntries → List Module
  | FSEntries.nil => []
  | FSEntries.cons f n rest =>
      (if nameMatches f then scanNode ty f (pathJoin dpath f) n else [])
        ++ scanEntries ty dpath rest
end

/-- Source lines 197 to 234, Manager.discoverModules, top level.  The root
argument is none when the directory does not exist: readdir then fails
with ENOENT, which the catch clause turns into an empty result (line 228).
A root that is a regular file makes readdir fail with a different code:
the error is logged and the empty modules list is returned (lines 230,
233). -/
def discoverModules (dpath : String) (root : Option FSNode) (ty : ModuleType) : List Module :=
  match root with
  | none => []
  | some (FSNode.file _) => []
  | some (FSNode.dir es) => scanEntries ty dpath es

/-- Source lines 183 to 188: push a candidate unless a module with the
same name is already in the accumulator. -/
def addIfNew (acc : List Module) (m : Module) : List Module :=
  if (acc.map fun mm => mm.name).contains m.name then acc else acc ++ [m]

/-- Source lines 175 to 195, Manager.discoverSystemModules.  The per
directory scans are launched under Promise.all; each scan appends its
deduplicated results when it resolves, so the merge happens in the order
the concurrent scans complete, which Promise.all does not constrain.  The
dirs argument pairs each PATH entry with the tree the scan observes there
(none for a missing directory); ord is the completion order of the scans,
as a list of indices into dirs. -/
def discoverSystemModules (dirs : List (String × Option FSNode)) (ord : List Nat) :
    List Module :=
  (ord.map fun i =>
      match dirs.get? i with
      | some pr => discoverModules pr.1 pr.2 ModuleType.system
      | none => []).foldl (fun acc batch => batch.foldl addIfNew acc) []

/-- Source lines 125 to 137, Manager.start: resolution of a name to the
module that gets started.  The filter-find pair prefers a bundled module;
the JavaScript or-else falls back to the first module of any type with the
name.  A some result means that module receives the start call; none
means the could-not-be-started error is logged and nothing is started. -/
def resolveStart (modules : List Module) (n : String) : Option Module :=
  match (modules.filter fun m => m.type == ModuleType.bundled).find? (fun m => m.name == n) with
  | some m => some m
  | none => modules.find? fun m => m.name == n

/-- Source lines 101 to 107: the Manager, with its modules field undefined
until init assigns it. -/
structure ManagerState : Type where
  modules : Option (List Module) := none
  to_autostart : List String
deriving DecidableEq

/-- Source lines 109 to 123, Manager.init.  When the modules field is
already set, the can-only-be-called-once error is logged (the Bool result
records that) and the method returns with the registry untouched.
Otherwise the registry becomes bundled discovery results followed by
system discovery results. -/
def Manager.init (st : ManagerState) (bundlePath : String) (bundleRoot : Option FSNode)
    (sysDirs : List (String × Option FSNode)) (ord : List Nat) : ManagerState × Bool :=
  match st.modules with
  | some _ => (st, true)
  | none =>
      ({ st with
          modules := some (discoverModules bundlePath bundleRoot ModuleType.bundled
            ++ discoverSystemModules sysDirs ord) }, false)

/-- Source lines 95 to 98, Module.running.  The body reads
this.process.signalCode unconditionally: when the process field was never
assigned, the read throws a TypeError; otherwise the result is the test
signalCode strictly equal to null. -/
def Module.running (m : Module) : Except JsError Bool :=
  match m.process with
  | none => Except.error JsError.typeError
  | some p => Except.ok (decide (p.signalCode = none))

/-- Environment outcome of one spawn call: the executable launches, or the
launch fails (missing file, no execute permission, OS rejection).  node
returns a handle in both cases and reports the failure asynchronously
through an error event on the handle. -/
inductive SpawnOutcome : Type where
  | ok : SpawnOutcome
  | failure : SpawnOutcome
deriving DecidableEq

/-- Source lines 59 to 76, Module.start.  this.process is assigned the
handle returned by spawn; on a failed spawn the handle has exitCode and
signalCode null and an error event pending.  The command line arguments
(the optional testing flag) do not affect any claim and are omitted. -/
def Module.start (m : Module) (o : SpawnOutcome) : Module :=
  match o with
  | SpawnOutcome.ok => { m with process := some ProcState.running }
  | SpawnOutcome.failure => { m with process := some ProcState.spawnFailed }

/-- The events for which Module.start registers listeners on the spawned
handle, source lines 68 to 72: the close event and the data events of the
stdout and stderr streams.  No listener is attached for the error event,
so a failed spawn raises an unhandled error event in node. -/
def startRegisteredEvents : List String := ["close", "stdout:data", "stderr:data"]

/-- Whether Module.start attaches a listener for the error event of the
spawned handle. -/
def startHandlesSpawnError : Bool := startRegisteredEvents.contains "error"

/-- Effect on the handle of this.process.kill, with the resulting exit
notification settled: a live process terminates by the sent signal; a
handle whose process already terminated, or whose spawn failed, is
unchanged by the kill. -/
def Module.kill (m : Module) : Module :=
  match m.process with
  | some ProcState.running => { m with process := some (ProcState.signaled "SIGTERM") }
  | _ => m

/-- Source lines 78 to 85, Module.stop.  running is evaluated first and
its TypeError propagates; when it returns true the process is killed; when
it returns false the was-not-running warning is logged, recorded by the
Bool component of the result. -/
def Module.stop (m : Module) : Except JsError (Module × Bool) :=
  match Module.running m with
  | Except.error e => Except.error e
  | Except.ok true => Except.ok (Module.kill m, false)
  | Except.ok false => Except.ok (m, true)

/-- Source lines 87 to 93, Module.toggle: stop when running reports true,
start otherwise; the TypeError of running on a fresh module propagates. -/
def Module.toggle (m : Module) (o : SpawnOutcome) : Except JsError Module :=
  match Module.running m with
  | Except.error e => Except.error e
  | Except.ok true =>
      match Module.stop m with
      | Except.error e => Except.error e
      | Except.ok pr => Except.ok pr.1
  | Except.ok false => Except.ok (Module.start m o)

/-- Source line 152: the autostart classification, name.includes aw-server. -/
def isServer (n : String) : Bool := strIncludes n "aw-server"

/-- An observable event of the autostart run: the start call for a name is
issued, or the promise of that start call settles. -/
inductive Ev : Type where
  | issue (n : String) : Ev
  | settle (n : String) : Ev
deriving DecidableEq

/-- The multiset of events one Promise.all phase over the given names
produces: an issue and a settle per name. -/
def phaseEvents : List String → List Ev
  | [] => []
  | n :: rest => Ev.issue n :: Ev.settle n :: phaseEvents rest

/-- The traces one awaited Promise.all batch over the given names can
produce: any interleaving of the per name issue and settle pairs.  Every
such interleaving is a permutation of phaseEvents, and the theorems below
hold for every permutation, so permutation is the constraint used. -/
def ValidPhase (names : List String) (tr : List Ev) : Prop :=
  tr.Perm (phaseEvents names)

/-- Source lines 139 to 166, Manager.autostart, as its set of possible
event traces.  An empty list returns at line 146 with no start events.
Otherwise the first await Promise.all settles every start of a name
containing aw-server before the second Promise.all issues any remaining
start, so a trace is a phase A trace followed by a phase B trace. -/
def AutostartTrace (names : List String) (tr : List Ev) : Prop :=
  if names.length = 0 then tr = []
  else
    ∃ ta tb, ValidPhase (names.filter isServer) ta ∧
      ValidPhase (names.filter fun n => !isServer n) tb ∧ tr = ta ++ tb

/- Executable and regular file witness: hasExecFileN p n tp is true when
the tree n, located at path p, contains a regular file with the execute
permission at path tp. -/
mutual
def hasExecFileN (p : String) (n : FSNode) (tp : String) : Bool :=
  match n with
  | FSNode.file ex => ex && p == tp
  | FSNode.dir es => hasExecFileE p es tp
def hasExecFileE (p : String) (es : FSEntries) (tp : String) : Bool :=
  match es with
  | FSEntries.nil => false
  | FSEntries.cons f n rest => hasExecFileN (pathJoin p f) n tp || hasExecFileE p rest tp
end

/-- Helper: when no bundled module carries the name, the first module of
any type carrying the name is exactly the first system module carrying it. -/
theorem find?_name_eq_filter_system (ms : List Module) (n : String)
    (h : ∀ m ∈ ms, m.type = ModuleType.bundled → m.name ≠ n) :
    (ms.find? fun m => m.name == n) =
      ((ms.filter fun m => m.type == ModuleType.system).find? fun m => m.name == n) := by
  induction ms with
  | nil => rfl
  | cons m rest ih =>
    have hrest : ∀ x ∈ rest, x.type = ModuleType.bundled → x.name ≠ n := by
      intro x hx
      exact h x (List.mem_cons_of_mem m hx)
    rw [List.find?_cons, List.filter_cons]
    match hty : m.type with
    | ModuleType.bundled =>
      have hname : m.name ≠ n := h m (List.mem_cons_self m rest) hty
      have hb : (m.name == n) = false := by simp [hname]
      rw [hb]
      simpa using ih hrest
    | ModuleType.system =>
      by_cases hname : m.name = n
      · have hb : (m.name == n) = true := by simp [hname]
        rw [hb]
        simp [List.find?_cons, hb]
      · have hb : (m.name == n) = false := by simp [hname]
        rw [hb]
        simpa [List.find?_cons, hb] using ih hrest

/-- Claim C2: start resolves a name with bundled over system precedence:
a bundled module with the name is started when one exists; otherwise the
first system module with the name; otherwise nothing is started and the
not-found error is reported (resolution yields none). -/
theorem C2_start_resolution (ms : List Module) (n : String) :
    ((∃ m ∈ ms, m.type = ModuleType.bundled ∧ m.name = n) →
      ∃ m, resolveStart ms n = some m ∧ m.type = ModuleType.bundled ∧ m.name = n) ∧
    ((∀ m ∈ ms, m.type = ModuleType.bundled → m.name ≠ n) →
      resolveStart ms n =
        ((ms.filter fun m => m.type == ModuleType.system).find? fun m => m.name == n)) ∧
    ((∀ m ∈ ms, m.name ≠ n) → resolveStart ms n = none) := by
  refine ⟨?_, ?_, ?_⟩
  · rintro ⟨m, hmem, hty, hname⟩
    have hmemf : m ∈ ms.filter fun m => m.type == ModuleType.bundled := by
      simp [List.mem_filter, hmem, hty]
    have hsome :
        ((ms.filter fun m => m.type == ModuleType.bundled).find? fun m => m.name == n).isSome := by
      rw [List.find?_isSome]
      exact ⟨m, hmemf, by simp [hname]⟩
    obtain ⟨m', hm'⟩ := Option.isSome_iff_exists.mp hsome
    refine ⟨m', ?_, ?_, ?_⟩
    · unfold resolveStart
      rw [hm']
    · have := List.mem_of_find?_eq_some hm'
      exact by simpa using (List.mem_filter.mp this).2
    · have := List.find?_some hm'
      simpa using this
  · intro h
    have hnone :
        ((ms.filter fun m => m.type == ModuleType.bundled).find? fun m => m.name == n) = none := by
      rw [List.find?_eq_none]
      intro x hx
      have hx' := List.mem_filter.mp hx
      have : x.type = ModuleType.bundled := by simpa using hx'.2
      simp [h x hx'.1 this]
    unfold resolveStart
    rw [hnone]
    exact find?_name_eq_filter_system ms n h
  · intro h
    have hforall : ∀ (l : List Module), (∀ m ∈ l, m.name ≠ n) →
        (l.find? fun m => m.name == n) = none := by
      intro l hl
      rw [List.find?_eq_none]
      intro x hx
      simp [hl x hx]
    unfold resolveStart
    rw [hforall _ (by
      intro m hm
      exact h m (List.mem_filter.mp hm).1)]
    exact hforall ms h

/-- Witness for claim C2: a registry holding a bundled and a system module
that share the name aw-server resolves the name to the bundled one. -/
theorem C2_start_resolution_witness :
    (∃ m ∈ [Module.mk "aw-server" "/b/aw-server" none ModuleType.bundled,
            Module.mk "aw-server" "/s/aw-server" none ModuleType.system],
        m.type = ModuleType.bundled ∧ m.name = "aw-server") ∧
    ∃ m, resolveStart
        [Module.mk "aw-server" "/b/aw-server" none ModuleType.bundled,
         Module.mk "aw-server" "/s/aw-server" none ModuleType.system] "aw-server" = some m ∧
      m.type = ModuleType.bundled ∧ m.name = "aw-server" := by
  have h : ∃ m ∈ [Module.mk "aw-server" "/b/aw-server" none ModuleType.bundled,
            Module.mk "aw-server" "/s/aw-server" none ModuleType.system],
      m.type = ModuleType.bundled ∧ m.name = "aw-server" := by
    exact ⟨Module.mk "aw-server" "/b/aw-server" none ModuleType.bundled, by simp, rfl, rfl⟩
  exact ⟨h, (C2_start_resolution _ "aw-server").1 h⟩

/-- Claim C8: a missing directory contributes zero modules and no error:
discovery over a nonexistent root returns the empty sequence, and a
nonexistent PATH entry leaves the merged system discovery unchanged. -/
theorem C8_missing_directory (dpath : String) (ty : ModuleType) (p : String)
    (dirs : List (String × Option FSNode)) (ord : List Nat) :
    discoverModules dpath none ty = [] ∧
    discoverSystemModules ((p, none) :: dirs) (0 :: ord) =
      discoverSystemModules ((p, none) :: dirs) ord := by
  exact ⟨rfl, rfl⟩

/-- Claim C10: once init has completed, a second init call reports the
called-once error (the Bool component is true) and leaves the previously
built registry unchanged. -/
theorem C10_init_once (st : ManagerState) (ms : List Module) (bundlePath : String)
    (bundleRoot : Option FSNode) (sysDirs : List (String × Option FSNode)) (ord : List Nat)
    (h : st.modules = some ms) :
    (Manager.init st bundlePath bundleRoot sysDirs ord).1.modules = some ms ∧
    (Manager.init st bundlePath bundleRoot sysDirs ord).2 = true := by
  unfold Manager.init
  rw [h]
  exact ⟨h, rfl⟩

/-- Witness for claim C10: a manager already initialised with the empty
registry keeps it across a second init call, which reports the error. -/
theorem C10_init_once_witness :
    (ManagerState.mk (some []) []).modules = some [] ∧
    ((Manager.init (ManagerState.mk (some []) []) "/b" none [] []).1.modules = some [] ∧
      (Manager.init (ManagerState.mk (some []) []) "/b" none [] []).2 = true) :=
  ⟨rfl, C10_init_once (ManagerState.mk (some []) []) [] "/b" none [] [] rfl⟩

/-- Claim C4, code evaluation: the claimed invariant fails in the code.
A module whose process exited normally (exit code zero, so the OS has
reported the exit) still has a non-null handle with signalCode null, and
running returns true; a module that was never started has no handle, yet
running throws a TypeError instead of returning false.  The one case the
code gets right, a process terminated by a signal, is recorded last. -/
theorem C4_running_invariant_eval :
    Module.running (Module.mk "aw-server" "/b/aw-server" (some (ProcState.exited 0))
        ModuleType.bundled) = Except.ok true ∧
    Module.running (Module.mk "aw-server" "/b/aw-server" none ModuleType.bundled) =
      Except.error JsError.typeError ∧
    Module.running (Module.mk "aw-server" "/b/aw-server" (some (ProcState.signaled "SIGTERM"))
        ModuleType.bundled) = Except.ok false := by
  exact ⟨rfl, rfl, rfl⟩

/-- Claim C5, code evaluation: after a failed spawn the handle is attached
with signalCode null, so running reports true rather than the claimed
Stopped state, and start registers no listener for the error event, so the
spawn failure escalates as an unhandled error event. -/
theorem C5_spawn_failure_eval (m : Module) :
    Module.running (Module.start m SpawnOutcome.failure) = Except.ok true ∧
    startHandlesSpawnError = false := by
  exact ⟨rfl, by decide⟩

/-- Claim C6, code evaluation: stop on a module that was never started
throws a TypeError through running instead of warning, and stop on a
module whose process exited normally does not warn at all: running reports
true, so the dead process is killed (a no-op) and the warning branch is
never reached.  Stop behaves as claimed only for a signal-terminated
process, recorded last. -/
theorem C6_stop_stopped_eval :
    Module.stop (Module.mk "aw-server" "/b/aw-server" none ModuleType.bundled) =
      Except.error JsError.typeError ∧
    Module.stop (Module.mk "aw-server" "/b/aw-server" (some (ProcState.exited 0))
        ModuleType.bundled) =
      Except.ok (Module.mk "aw-server" "/b/aw-server" (some (ProcState.exited 0))
        ModuleType.bundled, false) ∧
    Module.stop (Module.mk "aw-server" "/b/aw-server" (some (ProcState.signaled "SIGTERM"))
        ModuleType.bundled) =
      Except.ok (Module.mk "aw-server" "/b/aw-server" (some (ProcState.signaled "SIGTERM"))
        ModuleType.bundled, true) := by
  exact ⟨rfl, rfl, rfl⟩

/-- Claim C9, code evaluation: toggle on a module that was never started
throws a TypeError instead of starting it, because running reads the
signalCode field of the undefined process handle.  For a module whose
handle is attached the double toggle property does hold: toggling a live
module kills it, toggling again respawns it, returning it to its original
running state, and symmetrically for a signal-terminated module. -/
theorem C9_toggle_eval :
    Module.toggle (Module.mk "aw-server" "/b/aw-server" none ModuleType.bundled)
        SpawnOutcome.ok = Except.error JsError.typeError ∧
    ((Module.toggle (Module.mk "aw-server" "/b/aw-server" (some ProcState.running)
          ModuleType.bundled) SpawnOutcome.ok).bind
        (fun m1 => Module.toggle m1 SpawnOutcome.ok)) =
      Except.ok (Module.mk "aw-server" "/b/aw-server" (some ProcState.running)
        ModuleType.bundled) ∧
    ((Module.toggle (Module.mk "aw-server" "/b/aw-server"
          (some (ProcState.signaled "SIGTERM")) ModuleType.bundled) SpawnOutcome.ok).bind
        (fun m1 => Module.toggle m1 SpawnOutcome.ok)).map
        (fun m2 => Module.running m2) =
      Except.ok (Except.ok false) := by
  exact ⟨rfl, rfl, rfl⟩

/-- Claim C1, counterexample to the claim as stated: two PATH directories
both holding an executable regular file named aw-server, merged in the
completion order that finishes the second directory first, yield the
module located under the second directory, not under the first as the
claim requires for every completion order. -/
theorem C1_counterexample :
    discoverSystemModules
        [("/d1", some (FSNode.dir (FSEntries.cons "aw-server" (FSNode.file true) FSEntries.nil))),
         ("/d2", some (FSNode.dir (FSEntries.cons "aw-server" (FSNode.file true) FSEntries.nil)))]
        [1, 0] =
      [Module.mk "aw-server" "/d2/aw-server" none ModuleType.system] ∧
    ("/d2/aw-server" : String) ≠ "/d1/aw-server" := by
  exact ⟨rfl, by decide⟩

/-- Claim C1, amended: system discovery over two directories that both
hold an executable file X matching the pattern yields exactly one system
module named X, but its location follows the completion order of the
concurrent per directory scans (the first scan merged wins), not the PATH
list position: the location is under d1 exactly when the scan of d1 is
merged first. -/
theorem C1_dedup_completion_order (d1 d2 X : String) (hX : nameMatches X = true) :
    discoverSystemModules
        [(d1, some (FSNode.dir (FSEntries.cons X (FSNode.file true) FSEntries.nil))),
         (d2, some (FSNode.dir (FSEntries.cons X (FSNode.file true) FSEntries.nil)))] [0, 1] =
      [Module.mk X (pathJoin d1 X) none ModuleType.system] ∧
    discoverSystemModules
        [(d1, some (FSNode.dir (FSEntries.cons X (FSNode.file true) FSEntries.nil))),
         (d2, some (FSNode.dir (FSEntries.cons X (FSNode.file true) FSEntries.nil)))] [1, 0] =
      [Module.mk X (pathJoin d2 X) none ModuleType.system] := by
  constructor <;>
    simp [discoverSystemModules, discoverModules, scanEntries, scanNode, addIfNew, hX]

/-- Witness for claim C1 as amended: with concrete directories and the
name aw-server, the PATH order completion gives the location under the
first directory. -/
theorem C1_dedup_completion_order_witness :
    nameMatches "aw-server" = true ∧
    discoverSystemModules
        [("/d1", some (FSNode.dir (FSEntries.cons "aw-server" (FSNode.file true) FSEntries.nil))),
         ("/d2", some (FSNode.dir (FSEntries.cons "aw-server" (FSNode.file true) FSEntries.nil)))]
        [0, 1] =
      [Module.mk "aw-server" (pathJoin "/d1" "aw-server") none ModuleType.system] :=
  ⟨by decide, (C1_dedup_completion_order "/d1" "/d2" "aw-server" (by decide)).1⟩

/-- Helper: every event of a phase over the given names is the issue or
the settle of one of those names. -/
theorem mem_phaseEvents {ev : Ev} {ns : List String} (h : ev ∈ phaseEvents ns) :
    ∃ n ∈ ns, ev = Ev.issue n ∨ ev = Ev.settle n := by
  induction ns with
  | nil => simp [phaseEvents] at h
  | cons n rest ih =>
    simp only [phaseEvents, List.mem_cons] at h
    rcases h with h | h | h
    · exact ⟨n, List.mem_cons_self n rest, Or.inl h⟩
    · exact ⟨n, List.mem_cons_self n rest, Or.inr h⟩
    · obtain ⟨x, hx, hor⟩ := ih h
      exact ⟨x, List.mem_cons_of_mem n hx, hor⟩

/-- Claim C3: on a non empty autostart list, every trace the two phase
autostart can produce settles the start of every server classified name
before it issues the start of any non server name, whatever the
interleaving inside each phase. -/
theorem C3_autostart_two_phases (names : List String) (tr : List Ev) (s o : String)
    (i j : Nat) (hne : names ≠ [])
    (htr : AutostartTrace names tr)
    (hs : isServer s = true) (ho : isServer o = false)
    (hi : tr[i]? = some (Ev.settle s)) (hj : tr[j]? = some (Ev.issue o)) :
    i < j := by
  unfold AutostartTrace at htr
  rw [if_neg (fun hc => hne (List.length_eq_zero.mp hc))] at htr
  obtain ⟨ta, tb, hpa, hpb, rfl⟩ := htr
  have hsB : Ev.settle s ∉ tb := by
    intro hmem
    obtain ⟨x, hx, hor⟩ := mem_phaseEvents (hpb.mem_iff.mp hmem)
    have hxo : isServer x = false := by
      have := (List.mem_filter.mp hx).2
      simpa using this
    rcases hor with h | h
    · exact Ev.noConfusion h
    · have hsx : s = x := by injection h
      rw [← hsx, hs] at hxo
      exact Bool.noConfusion hxo
  have hoA : Ev.issue o ∉ ta := by
    intro hmem
    obtain ⟨x, hx, hor⟩ := mem_phaseEvents (hpa.mem_iff.mp hmem)
    have hxs : isServer x = true := (List.mem_filter.mp hx).2
    rcases hor with h | h
    · have hox : o = x := by injection h
      rw [← hox, ho] at hxs
      exact Bool.noConfusion hxs
    · exact Ev.noConfusion h
  have hiA : i < ta.length := by
    by_contra hlt
    push_neg at hlt
    rw [List.getElem?_append_right hlt] at hi
    exact hsB (List.getElem?_mem hi)
  have hjB : ta.length ≤ j := by
    by_contra hlt
    push_neg at hlt
    rw [List.getElem?_append_left hlt] at hj
    exact hoA (List.getElem?_mem hj)
  omega

/-- Witness for claim C3: the end to end scenario trace, aw-server issued
and settled in phase A, aw-watcher-afk issued and settled in phase B, with
the settle at index one preceding the issue at index two. -/
theorem C3_autostart_two_phases_witness :
    (["aw-server", "aw-watcher-afk"] : List String) ≠ [] ∧
    AutostartTrace ["aw-server", "aw-watcher-afk"]
      [Ev.issue "aw-server", Ev.settle "aw-server",
       Ev.issue "aw-watcher-afk", Ev.settle "aw-watcher-afk"] ∧
    (1 : Nat) < 2 := by
  have htr : AutostartTrace ["aw-server", "aw-watcher-afk"]
      [Ev.issue "aw-server", Ev.settle "aw-server",
       Ev.issue "aw-watcher-afk", Ev.settle "aw-watcher-afk"] := by
    unfold AutostartTrace
    rw [if_neg (by decide)]
    refine ⟨[Ev.issue "aw-server", Ev.settle "aw-server"],
        [Ev.issue "aw-watcher-afk", Ev.settle "aw-watcher-afk"], ?_, ?_, rfl⟩
    · unfold ValidPhase
      have hfil : (["aw-server", "aw-watcher-afk"].filter isServer) = ["aw-server"] := by
        decide
      rw [hfil]
      exact List.Perm.refl _
    · unfold ValidPhase
      have hfil : (["aw-server", "aw-watcher-afk"].filter fun n => !isServer n) =
          ["aw-watcher-afk"] := by
        decide
      rw [hfil]
      exact List.Perm.refl _
  refine ⟨by decide, htr, ?_⟩
  exact C3_autostart_two_phases ["aw-server", "aw-watcher-afk"] _ "aw-server" "aw-watcher-afk"
    1 2 (by decide) htr (by decide) (by decide) rfl rfl

/- Helper soundness of the recursive scan: every emitted module has a
matching name and its location is an executable regular file in the
scanned tree. -/
mutual
theorem scanNode_sound (ty : ModuleType) (fname fpath : String) :
    ∀ (nd : FSNode) (m : Module), nameMatches fname = true →
      m ∈ scanNode ty fname fpath nd →
      nameMatches m.name = true ∧ hasExecFileN fpath nd m.path = true
  | FSNode.file true, m, hf, hm => by
    simp only [scanNode, if_true] at hm
    have hmeq : m = Module.mk fname fpath none ty := by simpa using hm
    subst hmeq
    exact ⟨hf, by simp [hasExecFileN]⟩
  | FSNode.file false, m, hf, hm => by
    simp [scanNode] at hm
  | FSNode.dir es, m, hf, hm => by
    simp only [scanNode] at hm
    have h := scanEntries_sound ty fpath es m hm
    exact ⟨h.1, by simpa [hasExecFileN] using h.2⟩
theorem scanEntries_sound (ty : ModuleType) (dpath : String) :
    ∀ (es : FSEntries) (m : Module), m ∈ scanEntries ty dpath es →
      nameMatches m.name = true ∧ hasExecFileE dpath es m.path = true
  | FSEntries.nil, m, hm => by
    simp [scanEntries] at hm
  | FSEntries.cons f nd rest, m, hm => by
    simp only [scanEntries] at hm
    rcases List.mem_append.mp hm with h | h
    · by_cases hf : nameMatches f = true
      · rw [if_pos hf] at h
        have hs := scanNode_sound ty f (pathJoin dpath f) nd m hf h
        exact ⟨hs.1, by simp [hasExecFileE, hs.2]⟩
      · rw [if_neg hf] at h
        cases h
    · have hs := scanEntries_sound ty dpath rest m h
      exact ⟨hs.1, by simp [hasExecFileE, hs.2]⟩
end

/-- Claim C7: every module returned by discovery has a name matching the
module name pattern and a location that, in the scanned tree, is a regular
file carrying the execute permission. -/
theorem C7_discovery_sound (dpath : String) (root : Option FSNode) (ty : ModuleType)
    (m : Module) (hm : m ∈ discoverModules dpath root ty) :
    nameMatches m.name = true ∧
    ∃ nd, root = some nd ∧ hasExecFileN dpath nd m.path = true := by
  cases root with
  | none => cases hm
  | some nd =>
    cases nd with
    | file b => cases hm
    | dir es =>
      have h := scanEntries_sound ty dpath es m hm
      exact ⟨h.1, FSNode.dir es, rfl, by simpa [hasExecFileN] using h.2⟩

/-- Witness for claim C7: the bundled scan of a root holding one
executable file aw-server emits that module, whose name matches and whose
location is an executable regular file of the tree. -/
theorem C7_discovery_sound_witness :
    (Module.mk "aw-server" "/b/aw-server" none ModuleType.bundled ∈
      discoverModules "/b"
        (some (FSNode.dir (FSEntries.cons "aw-server" (FSNode.file true) FSEntries.nil)))
        ModuleType.bundled) ∧
    (nameMatches (Module.mk "aw-server" "/b/aw-server" none ModuleType.bundled).name = true ∧
      ∃ nd, (some (FSNode.dir (FSEntries.cons "aw-server" (FSNode.file true) FSEntries.nil)) :
          Option FSNode) = some nd ∧
        hasExecFileN "/b" nd (Module.mk "aw-server" "/b/aw-server" none ModuleType.bundled).path =
          true) := by
  have hm : Module.mk "aw-server" "/b/aw-server" none ModuleType.bundled ∈
      discoverModules "/b"
        (some (FSNode.dir (FSEntries.cons "aw-server" (FSNode.file true) FSEntries.nil)))
        ModuleType.bundled := by
    decide
  exact ⟨hm, C7_discovery_sound "/b" _ ModuleType.bundled _ hm⟩

end AWManager
